import Mathlib

/-!
Verification of the OptionalStruct derivation engine
(src/implementation/src/lib.rs) against its natural-language
specification.

The source is a code generator: for every field of a base struct it
computes a classification (already-optional, wrapped, nested) from the
declared type and the field's attributes, rewrites the field's type and
visibility for the derived partial struct, and emits three operations:
a completeness predicate (`can_convert`), a fallible conversion
(`TryFrom`), and a merge (`apply_to`).

Two layers are embedded here:

* the compile-time pipeline: the `syn`-level shapes inspected by
  `is_path_option` / `is_type_option`, the attribute-driven
  classification of `visit_fields`, the type and visibility rewriters,
  and the derive-list computation of `get_derive_macros`;

* the run-time semantics of the generated operations, as functions over
  a universe of record values indexed by the per-field classification
  triple the generators branch on.

Rust panics (`panic!`, `todo!`, `.expect`, `.unwrap` of `None`) abort
the whole derivation or the generated function; they are modelled with
`Except String` respectively `Option` results.
-/

namespace OptionalStruct

/-- One segment of a syntactic type path (`syn::PathSegment`); the
source only ever reads the identifier. -/
structure PathSegment where
  ident : String
deriving DecidableEq

/-- A syntactic type path (`syn::Path`): an ordered list of segments. -/
structure Path where
  segments : List PathSegment
deriving DecidableEq

/-- The shapes of `syn::Type` that `is_type_option` (lines 436-474)
distinguishes. Payloads are kept only where the source looks inside the
type (`Paren` recurses); every other variant is matched wholesale. -/
inductive Ty where
  | path (p : Path)
  | array
  | tuple
  | paren (elem : Ty)
  | implTrait
  | traitObject
  | infer
  | macroTy
  | reference
  | never
  | slice
  | ptr
  | bareFn
  | verbatim
  | group
deriving DecidableEq

/-- Transcribed from `is_path_option` (lines 429-434): the last path
segment is literally named "Option"; no name resolution happens. -/
def is_path_option (p : Path) : Bool :=
  (p.segments.getLast?.map (fun ps => ps.ident == "Option")).getD false

/-- Transcribed from `is_type_option` (lines 436-474). The Rust
function panics (fatally aborting the derivation) on the shapes it
cannot classify; a panic is modelled as `Except.error` carrying the
gist of the panic message. -/
def is_type_option : Ty → Except String Bool
  | Ty.path p => Except.ok (is_path_option p)
  | Ty.array => Except.ok false
  | Ty.tuple => Except.ok false
  | Ty.paren t => is_type_option t
  | Ty.implTrait => Except.error "might already be an option, no way to tell"
  | Ty.traitObject => Except.error "might already be an option, no way to tell"
  | Ty.infer => Except.error "if you cannot tell, neither can I"
  | Ty.macroTy => Except.error "cannot handle this easily"
  | Ty.reference => Except.error "struct containing a reference is dubious"
  | Ty.never => Except.error "struct containing a never-type is dubious"
  | Ty.slice => Except.error "struct containing a slice is dubious"
  | Ty.ptr => Except.error "struct containing a pointer is dubious"
  | Ty.bareFn => Except.error "struct containing a function pointer is dubious"
  | Ty.verbatim => Except.error "did not get what this was supposed to be"
  | Ty.group => Except.error "not sure what to do here"

/-- Spec-side (claim C7): the field-type shapes the specification says
are rejected fatally: references, slices, raw pointers, function
pointers, the never-type, and opaque (`impl Trait` / trait object),
inferred or macro-produced types. -/
def unsupportedShape : Ty → Bool
  | Ty.reference => true
  | Ty.slice => true
  | Ty.ptr => true
  | Ty.bareFn => true
  | Ty.never => true
  | Ty.implTrait => true
  | Ty.traitObject => true
  | Ty.infer => true
  | Ty.macroTy => true
  | _ => false

/-- Spec-side (claim C8): the declared type has the optional-value
outer shape, determined structurally by the name of the last path
segment alone. -/
def outerShapeIsOption : Ty → Bool
  | Ty.path p => (p.segments.getLast?.map (fun ps => ps.ident == "Option")).getD false
  | Ty.paren t => outerShapeIsOption t
  | _ => false

/-- A single token tree, as obtained by `parse_args` for the
`optional_rename` argument; kept opaque. -/
abbrev TokenTree := String

/-- A conditional-compilation guard, passed through verbatim. -/
abbrev CfgGuard := String

/-- A field attribute, as the already-parsed front end (out of scope of
the spec) hands it to the classification loop of `visit_fields`
(lines 322-338): the four recognised attribute names, and anything else
(which the loop ignores). -/
inductive Attr where
  | rename (arg : TokenTree)
  | skipWrap
  | wrap
  | cfg (guard : CfgGuard)
  | other (name : String)
deriving DecidableEq

/-- Mirrors `syn::Visibility`. -/
inductive Visibility where
  | pub
  | restricted (path : String)
  | inherited
deriving DecidableEq

/-- Mirrors `syn::Field` as far as the source reads it: an optional
name (tuple-struct fields have none), a visibility, a declared type and
the attribute list. -/
structure Field where
  ident : Option String
  vis : Visibility
  ty : Ty
  attrs : List Attr
deriving DecidableEq

/-- The identifier used to address a field in generated code: its name,
or its positional index for tuple structs (lines 339-344). -/
inductive FieldIdent where
  | named (s : String)
  | index (i : Nat)
deriving DecidableEq

/-- Mirrors `FieldOptions` (lines 23-28). -/
structure FieldOptions where
  wrapping_behavior : Bool
  cfg_attribute : Option CfgGuard
  new_type : Option TokenTree
  field_ident : FieldIdent
deriving DecidableEq

/-- Mirrors `GlobalOptions` (lines 476-481). -/
structure GlobalOptions where
  new_struct_name : String
  extra_derive : List String
  default_wrapping_behavior : Bool
  make_fields_public : Bool
deriving DecidableEq

/-- Mirrors `ParsedMacroParameters` (lines 396-399): the already-parsed
invocation parameters. -/
structure ParsedMacroParameters where
  new_struct_name : Option String
  default_wrapping : Bool
deriving DecidableEq

/-- Transcribed from `GlobalOptions::new` (lines 483-497): default
output name `"Optional" ++ base name`, the four fixed extra derives,
the requested default wrapping, and unconditionally public fields. -/
def GlobalOptions.new (attr : ParsedMacroParameters) (struct_ident : String) : GlobalOptions :=
  { new_struct_name := attr.new_struct_name.getD ("Optional" ++ struct_ident)
    extra_derive := ["Clone", "PartialEq", "Default", "Debug"]
    default_wrapping_behavior := attr.default_wrapping
    make_fields_public := true }

/-- One step of the attribute loop in `visit_fields` (lines 322-338):
each recognised annotation overwrites the current decision, so a later
annotation wins over an earlier one. -/
def applyAttr (o : FieldOptions) (a : Attr) : FieldOptions :=
  match a with
  | Attr.rename t => { o with new_type := some t, wrapping_behavior := false }
  | Attr.skipWrap => { o with wrapping_behavior := false }
  | Attr.wrap => { o with wrapping_behavior := true }
  | Attr.cfg g => { o with cfg_attribute := some g }
  | Attr.other _ => o

/-- Transcribed from the per-field head of `visit_fields` (lines
318-345): start from `wrapping = !is_type_option(ty) && default`, then
fold the attributes in declaration order. `is_type_option` may abort
(panic) on unsupported shapes, which aborts the classification. -/
def classifyField (g : GlobalOptions) (struct_index : Nat) (f : Field) :
    Except String FieldOptions := do
  let isOpt ← is_type_option f.ty
  let init : FieldOptions :=
    { wrapping_behavior := !isOpt && g.default_wrapping_behavior
      cfg_attribute := none
      new_type := none
      field_ident :=
        match f.ident with
        | some n => FieldIdent.named n
        | none => FieldIdent.index struct_index }
  pure (f.attrs.foldl applyAttr init)

/-- The field loop of `visit_fields` (line 318): fields are processed
in declaration order, each with its positional index; the first panic
aborts the whole derivation, producing no output at all. -/
def classifyFieldsFrom (g : GlobalOptions) : Nat → List Field → Except String (List FieldOptions)
  | _, [] => Except.ok []
  | i, f :: fs => do
    let o ← classifyField g i f
    let rest ← classifyFieldsFrom g (i + 1) fs
    pure (o :: rest)

/-- Classification of a whole field list, starting at index 0. -/
def classifyFields (g : GlobalOptions) (fields : List Field) :
    Except String (List FieldOptions) :=
  classifyFieldsFrom g 0 fields

/-- Is the attribute one of the three helper attributes that
`RemoveHelperAttributesVisitor` strips (lines 278-288)? `cfg` is not
among them. -/
def isHelperAttr : Attr → Bool
  | Attr.rename _ => true
  | Attr.skipWrap => true
  | Attr.wrap => true
  | _ => false

/-- Transcribed from lines 274-289: the indexes of the attributes that
the stripping visitor will remove from the field. -/
def indexesToRemove (attrs : List Attr) : List Nat :=
  attrs.enum.filterMap (fun p => if isHelperAttr p.2 then some p.1 else none)

/-- Claim-side closed form for C5: the wrapping decision forced by the
last rename / skip-wrap / wrap annotation, if any (later annotations
win). -/
def lastWrapDirective : List Attr → Option Bool
  | [] => none
  | a :: rest =>
    match lastWrapDirective rest with
    | some b => some b
    | none =>
      match a with
      | Attr.rename _ => some false
      | Attr.skipWrap => some false
      | Attr.wrap => some true
      | _ => none

/-- Claim-side closed form for C5: the argument of the last rename
annotation, if any. -/
def lastRenameArg : List Attr → Option TokenTree
  | [] => none
  | a :: rest =>
    match lastRenameArg rest with
    | some t => some t
    | none =>
      match a with
      | Attr.rename t => some t
      | _ => none

/-- Claim-side closed form for C5: the guard of the last cfg
annotation, if any. -/
def lastCfgGuard : List Attr → Option CfgGuard
  | [] => none
  | a :: rest =>
    match lastCfgGuard rest with
    | some g => some g
    | none =>
      match a with
      | Attr.cfg g => some g
      | _ => none

/-- First-some choice on options (used to state the fold lemma). -/
def orO {α : Type} (x y : Option α) : Option α :=
  match x with
  | some v => some v
  | none => y

/-- The type tokens `SetNewFieldTypeVisitor` writes into the new field
(a `Type::Verbatim`, lines 253-266): the original declared type, the
rename substitute, or `Option<...>` around either. -/
inductive TypeTokens where
  | orig (t : Ty)
  | subst (t : TokenTree)
  | optionOf (inner : TypeTokens)
deriving DecidableEq

/-- Transcribed from `SetNewFieldTypeVisitor::visit` (lines 253-266):
base tokens are the rename substitute if present, else the original
type; if the wrapping behavior is set, they are wrapped in
`Option<...>`. -/
def setNewFieldType (opts : FieldOptions) (old_ty : Ty) : TypeTokens :=
  let base :=
    match opts.new_type with
    | some t => TypeTokens.subst t
    | none => TypeTokens.orig old_ty
  if opts.wrapping_behavior then TypeTokens.optionOf base else base

/-- Transcribed from `SetNewFieldVisibilityVisitor::visit` (lines
243-249): if the global option is set, the new field becomes `pub`,
otherwise it keeps its visibility. -/
def setNewFieldVisibility (g : GlobalOptions) (v : Visibility) : Visibility :=
  if g.make_fields_public then Visibility.pub else v

/-- A struct-level attribute as read by `get_derive_macros`: its name
and, when its arguments parse as a comma-separated list of paths (so
that `parse_nested_meta` succeeds on them), those path strings. -/
structure StructAttr where
  name : String
  metas : Option (List String)
deriving DecidableEq

/-- Transcribed from `DeriveInputWrapper::get_derive_macros` (lines
361-384): collect `extra_derive` into a set, then for EVERY attribute
of the (cloned) struct whose arguments parse as nested metas, remove
each listed path from the set; parse failures are ignored. The
surviving names are emitted into one `#[derive(...)]`. -/
def get_derive_macros (extra_derive : List String) (attrs : List StructAttr) : Finset String :=
  attrs.foldl
    (fun s a =>
      match a.metas with
      | some ms => ms.foldl (fun s' m => s'.erase m) s
      | none => s)
    extra_derive.toFinset

/-- Spec-side (claim C9): the capabilities already attached to the base
schema, i.e. the arguments of its `derive` attributes only. -/
def baseDeriveCapabilities (attrs : List StructAttr) : Finset String :=
  attrs.foldl
    (fun s a => if a.name == "derive" then s ∪ (a.metas.getD []).toFinset else s) ∅

/-- Amended-claim side for C9: every nested meta argument of every
(parseable) attribute of the struct, whatever the attribute is. -/
def allListedMetas (attrs : List StructAttr) : Finset String :=
  attrs.foldl (fun s a => s ∪ (a.metas.getD []).toFinset) ∅

/-- The per-field classification triple that the three generators
branch on, restricted to the two components `can_convert` and `TryFrom`
actually use (their matches take base-optionality as a wildcard):
is the partial field wrapped in `Option`, and does it recurse into a
nested partial type (the latter carrying that type's own schema). -/
inductive FieldClass where
  | plain
  | wrapped
  | nested (s : List FieldClass)
  | wrappedNested (s : List FieldClass)

/-- Run-time values of partial and base instances: an opaque scalar, an
optional cell, or a record of fields in declaration order. A partial
instance of a schema `s : List FieldClass` is a `vrec` whose i-th field
is: any value for `plain`, a `vopt` for `wrapped`, a partial instance
of the nested schema for `nested`, and a `vopt` of such an instance for
`wrappedNested`. -/
inductive Value where
  | prim (n : Nat)
  | vopt (o : Option Value)
  | vrec (fields : List Value)

mutual

/-- Semantics of the generated `can_convert` (lines 45-58 and 61-87):
the body is the accumulated sequence of per-field fragments
`if !inc { return false; }` followed by `true`, i.e. the short-circuit
conjunction of the per-field contributions in declaration order. -/
def can_convert (s : List FieldClass) (v : Value) : Bool :=
  match v with
  | Value.vrec vs => can_convert_fields s vs
  | _ => false
termination_by 3 * sizeOf s + 2
decreasing_by all_goals (simp_wf; try omega)

/-- Fold of the per-field contributions in declaration order. -/
def can_convert_fields : List FieldClass → List Value → Bool
  | [], _ => true
  | _ :: _, [] => true
  | c :: cs, v :: vs => can_convert_field c v && can_convert_fields cs vs
termination_by cs _ => 3 * sizeOf cs + 1
decreasing_by all_goals (simp_wf; try omega)

/-- The per-field contribution `inc` of `GenerateCanConvertImpl::visit`
(lines 69-77), transcribed arm by arm:
`(_, true, false)`: `self.f.is_some()`;
`(_, true, true)`: `if let Some(i) = &self.f { !i.can_convert() } else { false }`;
`(_, false, true)`: `self.f.can_convert()`;
`(_, false, false)`: `true`.
Shape mismatches (impossible in the typed Rust) yield `false`. -/
def can_convert_field : FieldClass → Value → Bool
  | FieldClass.plain, _ => true
  | FieldClass.wrapped, Value.vopt o => o.isSome
  | FieldClass.wrapped, _ => false
  | FieldClass.nested s, v => can_convert s v
  | FieldClass.wrappedNested s, Value.vopt (some i) => !can_convert s i
  | FieldClass.wrappedNested _, Value.vopt none => false
  | FieldClass.wrappedNested _, _ => false
termination_by c _ => 3 * sizeOf c
decreasing_by all_goals (simp_wf; try omega)

end

/-- The pre-check of one field of the generated `TryFrom` impl
(`GenerateTryFromImpl::visit`, lines 132-153), transcribed arm by arm
as "the check passes" (the generated statement is an early
`return Err(v)` when it fails):
`(_, true, false)`: fails iff `v.f.is_none()`;
`(_, true, true)`: fails iff the field is `None`, or it is `Some(i)`
with `!i.can_convert()`;
`(_, false, true)`: fails iff `!v.f.can_convert()`;
`(_, false, false)`: no check. -/
def field_check : FieldClass → Value → Bool
  | FieldClass.plain, _ => true
  | FieldClass.wrapped, Value.vopt o => o.isSome
  | FieldClass.wrapped, _ => false
  | FieldClass.nested s, v => can_convert s v
  | FieldClass.wrappedNested s, Value.vopt (some i) => can_convert s i
  | FieldClass.wrappedNested _, Value.vopt none => false
  | FieldClass.wrappedNested _, _ => false

/-- All pre-checks, folded in field declaration order with an early
return at the first failure (lines 163-167 accumulate them in order
before the assignments). -/
def field_checks : List FieldClass → List Value → Bool
  | [], _ => true
  | _ :: _, [] => true
  | c :: cs, v :: vs => field_check c v && field_checks cs vs

mutual

/-- Semantics of the generated `TryFrom::try_from`
(`GenerateTryFromImpl::get_implementation`, lines 102-122): the body is
the accumulated check fragments followed by `Ok(Self { assignments })`.
The first failing check returns `Err(v)` with the original argument;
only when every check passed are the per-field extraction expressions
evaluated. `none` models a panic of the generated code (an `.unwrap()`
or inner `.try_into().unwrap()` that fails). -/
def try_from (s : List FieldClass) (v : Value) : Option (Except Value Value) :=
  match v with
  | Value.vrec vs =>
    if field_checks s vs then
      (field_assigns s vs).map (fun ws => Except.ok (Value.vrec ws))
    else
      some (Except.error v)
  | _ => none
termination_by 3 * sizeOf s + 2
decreasing_by all_goals (simp_wf; try omega)

/-- The assignment list `field_assign_acc` (lines 155-161), evaluated
in declaration order. -/
def field_assigns : List FieldClass → List Value → Option (List Value)
  | [], _ => some []
  | _ :: _, [] => some []
  | c :: cs, v :: vs => do
    let w ← field_assign c v
    let ws ← field_assigns cs vs
    pure (w :: ws)
termination_by cs _ => 3 * sizeOf cs + 1
decreasing_by all_goals (simp_wf; try omega)

/-- The per-field extraction `v.f #unwrap` (lines 132-153):
`(_, true, false)`: `.unwrap()`;
`(_, true, true)`: `.unwrap().try_into().unwrap()`;
`(_, false, true)`: `.try_into().unwrap()`;
`(_, false, false)`: the value as is.
`none` is a panic: unwrapping an absent value, or unwrapping the result
of a failed nested conversion. -/
def field_assign : FieldClass → Value → Option Value
  | FieldClass.plain, v => some v
  | FieldClass.wrapped, Value.vopt (some x) => some x
  | FieldClass.wrapped, _ => none
  | FieldClass.nested s, v =>
    (try_from s v).bind (fun r =>
      match r with
      | Except.ok b => some b
      | Except.error _ => none)
  | FieldClass.wrappedNested s, Value.vopt (some i) =>
    (try_from s i).bind (fun r =>
      match r with
      | Except.ok b => some b
      | Except.error _ => none)
  | FieldClass.wrappedNested _, _ => none
termination_by c _ => 3 * sizeOf c
decreasing_by all_goals (simp_wf; try omega)

end

/-- A field with a reference type, used as the concrete C7 input. -/
def refField : Field :=
  { ident := some "a", vis := Visibility.inherited, ty := Ty.reference, attrs := [] }

/-- The global options of a plain invocation (no parameters). -/
def defaultGlobals : GlobalOptions :=
  GlobalOptions.new { new_struct_name := none, default_wrapping := true } "Foo"

/-- The attribute list of the concrete C5 example: several conflicting
annotations, whose later members must win. -/
def sampleAttrs : List Attr :=
  [Attr.wrap, Attr.rename "OptionalInner", Attr.cfg "unix",
    Attr.skipWrap, Attr.cfg "windows", Attr.wrap]

/-- The concrete field of the C5 example. -/
def sampleField : Field :=
  { ident := some "a", vis := Visibility.inherited, ty := Ty.tuple, attrs := sampleAttrs }

/-- Schema of a nested partial struct with one wrapped plain field
(e.g. `struct Inner { y: u32 }` derived with default wrapping, so the
partial field is `Option<u32>`). -/
def innerSchema : List FieldClass := [FieldClass.wrapped]

/-- Schema of an outer partial struct with one wrapped nested field
(e.g. `struct Outer { x: Inner }` with `optional_rename(OptionalInner)`
and `optional_wrap`, so the partial field is `Option<OptionalInner>`). -/
def outerSchema : List FieldClass := [FieldClass.wrappedNested innerSchema]

/-- A partial instance of `outerSchema` whose wrapped nested field is
present but whose inner value is incomplete (its own wrapped field is
absent). -/
def incompletePartial : Value :=
  Value.vrec [Value.vopt (some (Value.vrec [Value.vopt none]))]

/-- Run-time values for the merge-fragment semantics of claim C4: an
opaque base value, an optional cell, a partial record with named
fields, or the raw `Result` of a conversion. -/
inductive RVal where
  | base (n : Nat)
  | opt (o : Option RVal)
  | record (fields : List (String × RVal))
  | result (r : Except Unit RVal)

/-- Lookup of a named field in a record field list. -/
def lookupR : List (String × RVal) → String → Option RVal
  | [], _ => none
  | (k, v) :: rest, n => if k == n then some v else lookupR rest n

/-- Projection of a named field, defined only on records that have the
field (anything else is a Rust type error). -/
def getFieldR : RVal → String → Option RVal
  | RVal.record fs, n => lookupR fs n
  | _, _ => none

/-- Storing a value into the `Option`-typed base field of the merge
target: well-typed only when the stored value is itself an optional
cell (Rust rejects the assignment otherwise). -/
def storeIntoOptionSlot : RVal → Option (Option RVal)
  | RVal.opt o => some o
  | _ => none

/-- Transcribed from the `(true, false, true)` arm of
`GenerateApplyFnVisitor::visit` (lines 215-221), the merge code for a
base-optional, unwrapped, nested field named `ident`:
`match (&mut t.ident, self.ident) {`
`(None, Some(nested)) => t.ident = nested.ident.try_into(),`
`(Some(existing), Some(nested)) => nested.ident.apply_to(existing),`
`(_, None) => {} }`.
The nested type's conversion and recursive merge are parameters.
The result is the new content of the base field; `none` models an
expression that does not evaluate: a projection `nested.ident` on a
value without a field of the OUTER field's name, or the assignment of a
non-optional `Result` value into the `Option`-typed base field. -/
def applyFragOptNested (ident : String) (tryIntoN : RVal → Except Unit RVal)
    (applyToN : RVal → RVal → Option RVal) (tField : Option RVal) (pField : Option RVal) :
    Option (Option RVal) :=
  match tField, pField with
  | none, some nested =>
    match getFieldR nested ident with
    | some x => storeIntoOptionSlot (RVal.result (tryIntoN x))
    | none => none
  | some existing, some nested =>
    match getFieldR nested ident with
    | some x => (applyToN x existing).map some
    | none => none
  | _, none => some tField

/-- Modelled from the spec (claim C4 row): if the base field is absent
and the partial field present, attempt conversion of the nested value
itself into the base field, ignoring conversion failure; if both are
present, recursively merge the nested value into the existing base
value; if the partial field is absent, do nothing. -/
def applyFragOptNested_spec (tryIntoN : RVal → Except Unit RVal)
    (applyToN : RVal → RVal → Option RVal) (tField : Option RVal) (pField : Option RVal) :
    Option (Option RVal) :=
  match tField, pField with
  | none, some nested =>
    match tryIntoN nested with
    | Except.ok b => some (some b)
    | Except.error _ => some none
  | some existing, some nested => (applyToN nested existing).map some
  | _, none => some tField

/-- Unfolding lemma: binding after an `Except.error` is that error. -/
lemma exceptErrorBind {ε α β : Type} (e : ε) (k : α → Except ε β) :
    (Except.error e >>= k : Except ε β) = Except.error e := rfl

/-- Unfolding lemma: binding after an `Except.ok` runs the rest. -/
lemma exceptOkBind {ε α β : Type} (a : α) (k : α → Except ε β) :
    (Except.ok a >>= k : Except ε β) = k a := rfl

/-- Unfolding lemma: mapping over an `Except.error` is that error. -/
lemma exceptMapError {ε α β : Type} (e : ε) (f : α → β) :
    (f <$> (Except.error e : Except ε α)) = Except.error e := rfl

/-- An unclassifiable type shape makes `is_type_option` abort. -/
lemma is_type_option_error_of_unsupported (t : Ty) (h : unsupportedShape t = true) :
    ∃ m, is_type_option t = Except.error m := by
  cases t <;> simp [unsupportedShape] at h <;> exact ⟨_, rfl⟩

/-- An unclassifiable type shape makes the classification of its field
abort. -/
lemma classifyField_error_of_unsupported (g : GlobalOptions) (i : Nat) (f : Field)
    (h : unsupportedShape f.ty = true) :
    ∃ m, classifyField g i f = Except.error m := by
  obtain ⟨m, hm⟩ := is_type_option_error_of_unsupported f.ty h
  exact ⟨m, by simp [classifyField, hm, exceptErrorBind]⟩

/-- C7: for every field whose declared type is a reference, slice, raw
pointer, function pointer, never-type, or an opaque, inferred or
macro-produced type, the whole derivation aborts fatally (the
classification pass over the complete field list ends in an error, so
no partial or degraded output is produced). -/
theorem unsupportedShape_fatal (g : GlobalOptions) (fields : List Field) (f : Field)
    (hmem : f ∈ fields) (hbad : unsupportedShape f.ty = true) :
    ∃ m, classifyFields g fields = Except.error m := by
  have aux : ∀ (fs : List Field) (i : Nat), f ∈ fs →
      ∃ m, classifyFieldsFrom g i fs = Except.error m := by
    intro fs
    induction fs with
    | nil => intro i hm; cases hm
    | cons x xs ih =>
      intro i hm
      rcases List.mem_cons.mp hm with h1 | h2
      · subst h1
        obtain ⟨m, hmx⟩ := classifyField_error_of_unsupported g i f hbad
        exact ⟨m, by simp [classifyFieldsFrom, hmx, exceptErrorBind]⟩
      · obtain ⟨m, hm2⟩ := ih (i + 1) h2
        cases hc : classifyField g i x with
        | error e => exact ⟨e, by simp [classifyFieldsFrom, hc, exceptErrorBind]⟩
        | ok o => exact ⟨m, by simp [classifyFieldsFrom, hc, hm2, exceptOkBind, exceptErrorBind, exceptMapError]⟩
  exact aux fields 0 hmem

/-- Witness for C7 at a one-field struct holding a reference. -/
theorem unsupportedShape_fatal_witness :
    refField ∈ [refField] ∧ unsupportedShape refField.ty = true ∧
    ∃ m, classifyFields defaultGlobals [refField] = Except.error m :=
  ⟨List.mem_singleton.mpr rfl, rfl,
    unsupportedShape_fatal defaultGlobals [refField] refField
      (List.mem_singleton.mpr rfl) rfl⟩

/-- C8: the base-optionality flag is computed purely structurally: on
every type shape `is_type_option` classifies successfully, the result
is exactly "the outer shape is an `Option` path, judged by the name of
the last path segment"; in particular the flag depends on nothing but
that last segment name (no type resolution). -/
theorem isBaseOptional_structural :
    (∀ (t : Ty) (b : Bool), is_type_option t = Except.ok b → b = outerShapeIsOption t) ∧
    (∀ p q : Path, p.segments.getLast? = q.segments.getLast? →
      is_path_option p = is_path_option q) := by
  constructor
  · intro t
    induction t with
    | path p =>
      intro b h
      simp only [is_type_option, Except.ok.injEq] at h
      subst h
      rfl
    | array =>
      intro b h
      simp only [is_type_option, Except.ok.injEq] at h
      subst h
      rfl
    | tuple =>
      intro b h
      simp only [is_type_option, Except.ok.injEq] at h
      subst h
      rfl
    | paren t ih =>
      intro b h
      simp only [is_type_option] at h
      exact ih b h
    | implTrait => intro b h; simp [is_type_option] at h
    | traitObject => intro b h; simp [is_type_option] at h
    | infer => intro b h; simp [is_type_option] at h
    | macroTy => intro b h; simp [is_type_option] at h
    | reference => intro b h; simp [is_type_option] at h
    | never => intro b h; simp [is_type_option] at h
    | slice => intro b h; simp [is_type_option] at h
    | ptr => intro b h; simp [is_type_option] at h
    | bareFn => intro b h; simp [is_type_option] at h
    | verbatim => intro b h; simp [is_type_option] at h
    | group => intro b h; simp [is_type_option] at h
  · intro p q h
    simp [is_path_option, h]

/-- Witness for C8: a multi-segment path ending in `Option` is flagged
as base-optional without resolving the leading segments, exactly like
the plain `Option` path. -/
theorem isBaseOptional_structural_witness :
    is_type_option (Ty.path ⟨[⟨"yolo"⟩, ⟨"my"⟩, ⟨"Option"⟩]⟩) = Except.ok true ∧
    (true : Bool) = outerShapeIsOption (Ty.path ⟨[⟨"yolo"⟩, ⟨"my"⟩, ⟨"Option"⟩]⟩) ∧
    is_path_option ⟨[⟨"yolo"⟩, ⟨"my"⟩, ⟨"Option"⟩]⟩ = is_path_option ⟨[⟨"Option"⟩]⟩ :=
  ⟨rfl, isBaseOptional_structural.1 _ true rfl, isBaseOptional_structural.2 _ _ rfl⟩

/-- C6: the partial field type is the rename substitute when one is
present and the original declared type otherwise, and that base is
additionally wrapped in `Option<...>` exactly when the wrapping
behavior is set, so a substituted nested type may also end up
wrapped. -/
theorem setNewFieldType_matrix (opts : FieldOptions) (old_ty : Ty) :
    setNewFieldType opts old_ty =
      match opts.new_type, opts.wrapping_behavior with
      | some t, true => TypeTokens.optionOf (TypeTokens.subst t)
      | some t, false => TypeTokens.subst t
      | none, true => TypeTokens.optionOf (TypeTokens.orig old_ty)
      | none, false => TypeTokens.orig old_ty := by
  cases h : opts.new_type <;> cases hw : opts.wrapping_behavior <;>
    simp [setNewFieldType, h, hw]

/-- C10: every field of the derived partial struct is made public,
whatever the invocation parameters and whatever the original field
visibility: `GlobalOptions::new` hard-codes `make_fields_public`, and
the visibility visitor then rewrites the new field to `pub`. -/
theorem newFields_always_public (p : ParsedMacroParameters) (s : String) (v : Visibility) :
    setNewFieldVisibility (GlobalOptions.new p s) v = Visibility.pub := rfl

/-- First-some choice with an empty second operand is the identity. -/
lemma orO_none {α : Type} (x : Option α) : orO x none = x := by
  cases x <;> rfl

/-- The attribute fold of `visit_fields` computes, component-wise, the
last-write-wins closed forms: the last wrap directive decides the
wrapping (falling back to the initial value), the last rename argument
and the last cfg guard are recorded, and the field identifier is left
alone. -/
lemma foldl_applyAttr (attrs : List Attr) : ∀ o : FieldOptions,
    attrs.foldl applyAttr o =
      { wrapping_behavior := (lastWrapDirective attrs).getD o.wrapping_behavior
        cfg_attribute := orO (lastCfgGuard attrs) o.cfg_attribute
        new_type := orO (lastRenameArg attrs) o.new_type
        field_ident := o.field_ident } := by
  induction attrs with
  | nil =>
    intro o
    simp [lastWrapDirective, lastCfgGuard, lastRenameArg, orO]
  | cons a rest ih =>
    intro o
    rw [List.foldl_cons, ih (applyAttr o a)]
    cases a <;>
      simp only [applyAttr, lastWrapDirective, lastCfgGuard, lastRenameArg] <;>
      rcases hw : lastWrapDirective rest with _ | b <;>
      rcases hc : lastCfgGuard rest with _ | gg <;>
      rcases hr : lastRenameArg rest with _ | tt <;>
      simp [orO]

/-- Membership in `enumFrom` recovers the element at the index. -/
lemma mem_enumFrom_get : ∀ (l : List Attr) (n i : Nat) (a : Attr),
    (i, a) ∈ l.enumFrom n → n ≤ i ∧ l.get? (i - n) = some a := by
  intro l
  induction l with
  | nil => intro n i a h; cases h
  | cons x xs ih =>
    intro n i a h
    simp only [List.enumFrom] at h
    rcases List.mem_cons.mp h with h1 | h2
    · simp only [Prod.mk.injEq] at h1
      obtain ⟨rfl, rfl⟩ := h1
      simp
    · obtain ⟨h3, h4⟩ := ih (n + 1) i a h2
      refine ⟨by omega, ?_⟩
      have hi : i - n = (i - (n + 1)) + 1 := by omega
      rw [hi]
      simpa using h4

/-- Every index the stripping visitor schedules for removal points at
one of the three helper attributes; in particular a `cfg` attribute is
never consumed. -/
lemma indexesToRemove_helpers (attrs : List Attr) :
    ∀ j ∈ indexesToRemove attrs, (attrs.get? j).any isHelperAttr = true := by
  intro j hj
  simp only [indexesToRemove, List.mem_filterMap] at hj
  obtain ⟨⟨i, a⟩, hmem, hf⟩ := hj
  by_cases hh : isHelperAttr a
  · simp only [hh, if_pos] at hf
    obtain rfl := Option.some.injEq _ _ |>.mp hf
    have hget := mem_enumFrom_get attrs 0 i a (by simpa [List.enum] using hmem)
    have h2 : attrs.get? i = some a := by simpa using hget.2
    rw [h2]
    simpa [Option.any] using hh
  · simp [hh] at hf

/-- C5: classification starts from
`wrapping = !isBaseOptional && defaultWrap`, then folds the field's
annotations in declaration order with last-write-wins override: the
last rename / skip-wrap / wrap annotation decides the wrapping (rename
and skip-wrap force it off, wrap forces it on), the last rename
argument becomes the nested type, and the last cfg annotation is
recorded as the guard, while the stripping pass never targets a cfg
attribute (the guard is captured, not consumed). -/
theorem classifyField_lastWriteWins (g : GlobalOptions) (i : Nat) (f : Field) (b : Bool)
    (h : is_type_option f.ty = Except.ok b) :
    classifyField g i f = Except.ok
      { wrapping_behavior := (lastWrapDirective f.attrs).getD (!b && g.default_wrapping_behavior)
        cfg_attribute := lastCfgGuard f.attrs
        new_type := lastRenameArg f.attrs
        field_ident :=
          match f.ident with
          | some n => FieldIdent.named n
          | none => FieldIdent.index i } ∧
    ∀ j ∈ indexesToRemove f.attrs, (f.attrs.get? j).any isHelperAttr = true := by
  constructor
  · simp only [classifyField, h, exceptOkBind]
    rw [foldl_applyAttr]
    simp [orO_none, pure, Except.pure]
  · exact indexesToRemove_helpers f.attrs

/-- Witness for C5 at the concrete field: the final wrap annotation
wins, the rename argument and the second cfg guard are recorded. -/
theorem classifyField_lastWriteWins_witness :
    is_type_option sampleField.ty = Except.ok false ∧
    (classifyField defaultGlobals 0 sampleField = Except.ok
        { wrapping_behavior :=
            (lastWrapDirective sampleField.attrs).getD
              (!false && defaultGlobals.default_wrapping_behavior)
          cfg_attribute := lastCfgGuard sampleField.attrs
          new_type := lastRenameArg sampleField.attrs
          field_ident := FieldIdent.named "a" } ∧
      ∀ j ∈ indexesToRemove sampleField.attrs,
        (sampleField.attrs.get? j).any isHelperAttr = true) :=
  ⟨rfl, classifyField_lastWriteWins defaultGlobals 0 sampleField false rfl⟩

/-- Folding single-name erasures over a list equals subtracting the
list's finset. -/
lemma foldl_erase_eq_sdiff (ms : List String) : ∀ s : Finset String,
    ms.foldl (fun s' m => s'.erase m) s = s \ ms.toFinset := by
  induction ms with
  | nil => intro s; simp
  | cons m rest ih =>
    intro s
    rw [List.foldl_cons, ih (s.erase m), Finset.erase_eq, sdiff_sdiff_left]
    simp [Finset.insert_eq]

/-- A union-accumulating fold pulls its accumulator out front. -/
lemma foldl_union_acc (attrs : List StructAttr) : ∀ t : Finset String,
    attrs.foldl (fun s a => s ∪ (a.metas.getD []).toFinset) t =
      t ∪ allListedMetas attrs := by
  induction attrs with
  | nil => intro t; simp [allListedMetas]
  | cons a rest ih =>
    intro t
    have hcons : allListedMetas (a :: rest) =
        (a.metas.getD []).toFinset ∪ allListedMetas rest := by
      simp only [allListedMetas, List.foldl_cons]
      rw [ih]
      simp [allListedMetas]
    rw [List.foldl_cons, ih, hcons, Finset.union_assoc]

/-- The listed metas of a cons. -/
lemma allListedMetas_cons (a : StructAttr) (rest : List StructAttr) :
    allListedMetas (a :: rest) = (a.metas.getD []).toFinset ∪ allListedMetas rest := by
  simp only [allListedMetas, List.foldl_cons]
  rw [foldl_union_acc]
  simp [allListedMetas]

/-- C9 counterexample: on a base struct carrying `#[allow(Clone)]` (a
non-derive attribute listing the name `Clone`), the code removes
`Clone` from the fixed defaults although no `Clone` capability is
attached to the base schema, so the derive list is NOT "the fixed
defaults minus the capabilities already attached". -/
theorem derive_defaults_counterexample :
    get_derive_macros defaultGlobals.extra_derive [⟨"allow", some ["Clone"]⟩] ≠
      defaultGlobals.extra_derive.toFinset \
        baseDeriveCapabilities [⟨"allow", some ["Clone"]⟩] := by
  decide

/-- C9 amended: the derived partial schema is given exactly the fixed
default capabilities (equality comparison, default construction,
duplication, debug) minus every identifier that appears as a nested
meta argument of ANY attribute of the base schema — its derive lists in
particular, so no capability is attached twice — not only of its derive
attributes. -/
theorem get_derive_macros_subtracts_all_listed (extra_derive : List String)
    (attrs : List StructAttr) :
    get_derive_macros extra_derive attrs = extra_derive.toFinset \ allListedMetas attrs := by
  have aux : ∀ (rest : List StructAttr) (s : Finset String),
      rest.foldl
        (fun s' a =>
          match a.metas with
          | some ms => ms.foldl (fun s'' m => s''.erase m) s'
          | none => s') s
        = s \ allListedMetas rest := by
    intro rest
    induction rest with
    | nil => intro s; simp [allListedMetas]
    | cons a as_ ih =>
      intro s
      rw [List.foldl_cons, allListedMetas_cons]
      cases hm : a.metas with
      | none =>
        simp only [hm, Option.getD_none, List.toFinset_nil]
        rw [ih]
        simp
      | some ms =>
        simp only [hm, Option.getD_some]
        rw [ih, foldl_erase_eq_sdiff, sdiff_sdiff_left]
        simp
  exact aux attrs extra_derive.toFinset

/-- C1 (code evaluation): for a wrapped and nested field, the generated
completeness predicate is the exact negation of the documented rule. On
a one-field struct it returns `false` when the field is entirely absent
and when it is present with a complete inner value (both of which the
claim says are acceptable), and `true` precisely when the field is
present with an INCOMPLETE inner value. -/
theorem can_convert_wrappedNested_inverted :
    can_convert outerSchema (Value.vrec [Value.vopt none]) = false ∧
    can_convert outerSchema
      (Value.vrec [Value.vopt (some (Value.vrec [Value.vopt (some (Value.prim 0))]))]) = false ∧
    can_convert outerSchema incompletePartial = true := by
  refine ⟨?_, ?_, ?_⟩ <;>
    simp [outerSchema, innerSchema, incompletePartial,
      can_convert, can_convert_fields, can_convert_field]

/-- C2 (code evaluation): a partial instance on which the generated
completeness predicate holds, but whose fallible conversion fails,
returning the instance as the error: the wrapped nested field is
present with an incomplete inner value, which satisfies the inverted
predicate while failing the conversion's pre-check. -/
theorem can_convert_not_sufficient_for_try_from :
    can_convert outerSchema incompletePartial = true ∧
    try_from outerSchema incompletePartial = some (Except.error incompletePartial) := by
  constructor
  · simp [outerSchema, innerSchema, incompletePartial,
      can_convert, can_convert_fields, can_convert_field]
  · simp [outerSchema, innerSchema, incompletePartial, try_from,
      field_checks, field_check, can_convert, can_convert_fields, can_convert_field]

/-- C3: the generated conversion runs the accumulated per-field
pre-checks first (they are folded in declaration order with an early
return), and returns the original partial instance, unchanged, as the
error payload; the field extraction expressions are only evaluated —
and the base instance only constructed — when every check passed. -/
theorem try_from_checks_then_assign (s : List FieldClass) (vs : List Value) :
    (field_checks s vs = false →
      try_from s (Value.vrec vs) = some (Except.error (Value.vrec vs))) ∧
    (∀ r, try_from s (Value.vrec vs) = some (Except.error r) → r = Value.vrec vs) ∧
    (field_checks s vs = true →
      try_from s (Value.vrec vs) =
        (field_assigns s vs).map (fun ws => Except.ok (Value.vrec ws))) := by
  refine ⟨?_, ?_, ?_⟩
  · intro h
    simp [try_from, h]
  · intro r hr
    by_cases hc : field_checks s vs
    · simp only [try_from, hc, if_true] at hr
      cases ha : field_assigns s vs with
      | none => rw [ha] at hr; simp at hr
      | some ws => rw [ha] at hr; simp at hr
    · simp only [try_from, eq_false_of_ne_true hc, if_false] at hr
      simp at hr
      exact hr.symm
  · intro h
    simp [try_from, h]

/-- Witness for C3: a one-field struct with a wrapped field that is
absent fails its pre-check, and the conversion returns the original
instance as the error. -/
theorem try_from_checks_then_assign_witness :
    field_checks [FieldClass.wrapped] [Value.vopt none] = false ∧
    try_from [FieldClass.wrapped] (Value.vrec [Value.vopt none]) =
      some (Except.error (Value.vrec [Value.vopt none])) :=
  ⟨rfl, (try_from_checks_then_assign [FieldClass.wrapped] [Value.vopt none]).1 rfl⟩

/-- C4 (code evaluation): for a base-optional, unwrapped, nested field
(here named `child`) with the base field absent and the partial field
present, the generated arm projects the OUTER field name on the nested
value and assigns the raw conversion `Result` into the `Option`-typed
base field, so it never evaluates (`none`), even when the nested
conversion succeeds; the specified behavior converts the nested value
itself and stores it, ignoring failure. -/
theorem apply_optNested_arm_diverges :
    applyFragOptNested "child" (fun _ => Except.ok (RVal.base 7)) (fun _ e => some e)
      none (some (RVal.record [("child", RVal.base 5)])) = none ∧
    applyFragOptNested_spec (fun _ => Except.ok (RVal.base 7)) (fun _ e => some e)
      none (some (RVal.record [("child", RVal.base 5)])) = some (some (RVal.base 7)) :=
  ⟨rfl, rfl⟩

end OptionalStruct
